import Mathlib

/-!
# hello-dynamodb: attribute-value size accounting, dynamic projection, throttled reads

A shallow embedding of `src/main.go` (and the call site in `src/seed.go`).
-/

namespace HelloDynamoDB

/-- The Go builtin `len` on a string: the number of bytes of its UTF-8 encoding. -/
def len (s : String) : Nat := s.utf8ByteSize

/-- The SDK type `dynamodb.AttributeValue`: a struct of ten pointer-like fields, each of
which may be nil (`none`).  Set members and child values, which the SDK holds by pointer,
are embedded as the values pointed to. -/
inductive AttributeValue where
  | mk (S : Option String) (N : Option String) (B : Option (List UInt8))
       (SS : Option (List String)) (NS : Option (List String))
       (BS : Option (List (List UInt8)))
       (M : Option (List (String × AttributeValue)))
       (L : Option (List AttributeValue))
       (NULL : Option Bool) (BOOL : Option Bool)

/-- The statement `if p != nil { size = body(*p) }` on a field `p` that holds no child
value: the new value of `size`. -/
def ifSet (p : Option α) (body : α → Nat) (size : Nat) : Nat :=
  match p with
  | some a => body a
  | none => size

mutual
/-- Embeds `calculateAttributeValueSize` (main.go 219-264): ten `if field != nil` statements
in sequence, each adding to the running `size`.  The sizes are lengths of data held in
memory, far below the range of the 64-bit `int`, so `size` is a natural number. -/
def calculateAttributeValueSize : AttributeValue → Nat
  | .mk S N B SS NS BS M L NULL BOOL =>
    let size := 0
    let size := ifSet S (fun s => size + len s) size
    let size := ifSet N (fun n => size + len n) size
    let size := ifSet B (fun b => size + b.length) size
    let size := ifSet SS (fun ss => ss.foldl (fun size s => size + len s) size) size
    let size := ifSet NS (fun ns => ns.foldl (fun size n => size + len n) size) size
    let size := ifSet BS (fun bs => bs.foldl (fun size b => size + b.length) size) size
    let size := match M with
      | some m => rangeM m size
      | none => size
    let size := match L with
      | some l => rangeL l size
      | none => size
    let size := ifSet NULL (fun _ => size + 1) size
    let size := ifSet BOOL (fun _ => size + 1) size
    size
/-- The loop `for k, v := range value.M` of `calculateAttributeValueSize`. -/
def rangeM : List (String × AttributeValue) → Nat → Nat
  | [], size => size
  | (k, v) :: rest, size => rangeM rest (size + len k + calculateAttributeValueSize v)
/-- The loop `for _, v := range value.L` of `calculateAttributeValueSize`. -/
def rangeL : List AttributeValue → Nat → Nat
  | [], size => size
  | v :: rest, size => rangeL rest (size + calculateAttributeValueSize v)
end

/-- Embeds `calculateItemSize` (main.go 211-217); the item, a Go map, is given as the list
of its entries in the order the `range` statement visits them. -/
def calculateItemSize (item : List (String × AttributeValue)) : Nat :=
  item.foldl (fun size kv => size + calculateAttributeValueSize kv.2) 0

namespace AttributeValue

/-- Field `S` of the struct. -/
def S : AttributeValue → Option String
  | .mk S _ _ _ _ _ _ _ _ _ => S
/-- Field `N` of the struct. -/
def N : AttributeValue → Option String
  | .mk _ N _ _ _ _ _ _ _ _ => N
/-- Field `B` of the struct. -/
def B : AttributeValue → Option (List UInt8)
  | .mk _ _ B _ _ _ _ _ _ _ => B
/-- Field `SS` of the struct. -/
def SS : AttributeValue → Option (List String)
  | .mk _ _ _ SS _ _ _ _ _ _ => SS
/-- Field `NS` of the struct. -/
def NS : AttributeValue → Option (List String)
  | .mk _ _ _ _ NS _ _ _ _ _ => NS
/-- Field `BS` of the struct. -/
def BS : AttributeValue → Option (List (List UInt8))
  | .mk _ _ _ _ _ BS _ _ _ _ => BS
/-- Field `M` of the struct. -/
def M : AttributeValue → Option (List (String × AttributeValue))
  | .mk _ _ _ _ _ _ M _ _ _ => M
/-- Field `L` of the struct. -/
def L : AttributeValue → Option (List AttributeValue)
  | .mk _ _ _ _ _ _ _ L _ _ => L
/-- Field `NULL` of the struct. -/
def NULL : AttributeValue → Option Bool
  | .mk _ _ _ _ _ _ _ _ NULL _ => NULL
/-- Field `BOOL` of the struct. -/
def BOOL : AttributeValue → Option Bool
  | .mk _ _ _ _ _ _ _ _ _ BOOL => BOOL

/-- The assignment `value.M = m`. -/
def setM : AttributeValue → List (String × AttributeValue) → AttributeValue
  | .mk S N B SS NS BS _ L NULL BOOL, m => .mk S N B SS NS BS (some m) L NULL BOOL
/-- The assignment `value.L = l`. -/
def setL : AttributeValue → List AttributeValue → AttributeValue
  | .mk S N B SS NS BS M _ NULL BOOL, l => .mk S N B SS NS BS M (some l) NULL BOOL

/-- The literal `&dynamodb.AttributeValue{S: aws.String(s)}`. -/
def ofS (s : String) : AttributeValue := .mk (some s) none none none none none none none none none
/-- The literal `&dynamodb.AttributeValue{N: aws.String(n)}`. -/
def ofN (n : String) : AttributeValue := .mk none (some n) none none none none none none none none
/-- The literal `&dynamodb.AttributeValue{M: m}`. -/
def ofM (m : List (String × AttributeValue)) : AttributeValue :=
  .mk none none none none none none (some m) none none none
/-- The literal `&dynamodb.AttributeValue{L: l}`. -/
def ofL (l : List AttributeValue) : AttributeValue :=
  .mk none none none none none none none (some l) none none

end AttributeValue

/-- 1 when the field is populated (non-nil), 0 otherwise. -/
def tag (o : Option α) : Nat :=
  match o with
  | some _ => 1
  | none => 0

/-- Number of populated variant tags of an attribute value. -/
def populated (v : AttributeValue) : Nat :=
  tag v.S + tag v.N + tag v.B + tag v.SS + tag v.NS + tag v.BS + tag v.M + tag v.L
    + tag v.NULL + tag v.BOOL

/-- Contribution of one optional field to the size. -/
def part (f : α → Nat) (o : Option α) : Nat :=
  match o with
  | some a => f a
  | none => 0

/-- The keys of a Go map given by its entries. -/
def keys (m : List (String × β)) : List String := m.map Prod.fst

/-- The Go map assignment `m[k] = e`: an entry already stored under `k` is replaced,
otherwise the entry is added. -/
def mapAssign (m : List (String × β)) (k : String) (e : β) : List (String × β) :=
  match m with
  | [] => [(k, e)]
  | (k', e') :: rest => if k' = k then (k, e) :: rest else (k', e') :: mapAssign rest k e

/-- The Go map index expression `m[k]` with the comma-ok result. -/
def mapIndex (m : List (String × β)) (k : String) : Option β :=
  match m with
  | [] => none
  | (k', e') :: rest => if k' = k then some e' else mapIndex rest k

/-- A Map value with two entries: under `k` a list of the string `ab` and the number `12`,
under `flag` the boolean `true`. -/
def sampleValue : AttributeValue :=
  .ofM [("k", .ofL [.ofS "ab", .ofN "12"]),
        ("flag", .mk none none none none none none none none none (some true))]

/-- The item `seed` builds for the player `user1` and passes to `calculateItemSize`
(seed.go 83-111). -/
def seedItemUser1 : List (String × AttributeValue) :=
  [("region", .ofS "VN"),
   ("sk", .ofS "PLAYER#user1"),
   ("attributes", .ofM
      [("username", .ofS "user1"),
       ("avatar", .ofS "avatar1"),
       ("level", .ofN "1"),
       ("highest_score", .ofN "100"),
       ("characters", .ofL [.ofS "character1", .ofS "character2"])])]

/-! ## Errors and throttling classification -/

/-- A value implementing the SDK interface `awserr.Error`: its `Code()` and `Message()`. -/
structure AwsErr where
  Code : String
  Message : String
  deriving DecidableEq, Repr

/-- A non-nil Go `error` value: either a value that implements `awserr.Error`, or any other
error, given by the text its `Error()` method returns. -/
inductive GoError where
  | aws (e : AwsErr)
  | plain (text : String)
  deriving DecidableEq, Repr

/-- The method `Error()`; for an `awserr.Error` the SDK prints `code: message`. -/
def GoError.Error : GoError → String
  | .aws e => e.Code ++ ": " ++ e.Message
  | .plain text => text

/-- The call `fmt.Errorf(format + "%v", err)`: a fresh error that is not an
`awserr.Error` and whose text ends with the text of `err`. -/
def Errorf (format : String) (err : GoError) : GoError :=
  .plain (format ++ err.Error)

/-- The type assertion `err.(awserr.Error)` on an `error` interface value (`none` is the
nil interface). -/
def asAwsErr : Option GoError → Option AwsErr
  | some (.aws e) => some e
  | _ => none

/-- The SDK constant `dynamodb.ErrCodeProvisionedThroughputExceededException`. -/
def ErrCodeProvisionedThroughputExceededException : String :=
  "ProvisionedThroughputExceededException"

/-- Embeds `isThrottlingError` (main.go 201-209). -/
def isThrottlingError (err : Option GoError) : Bool :=
  match asAwsErr err with
  | some awsErr =>
    if awsErr.Code = ErrCodeProvisionedThroughputExceededException then true else false
  | none => false

/-! ## Generic values and domain records -/

/-- A Go `interface{}` value as the decode of a stored record yields it: the nil interface,
a bool, a string, a float64 (numbers arrive as float64; the constructor holds one whose value
is the integer `v`), a `[]interface{}`, a `map[string]interface{}` (its entries in the order
a `range` statement visits them), or a value of a dynamic type outside the supported shapes
(a function, a channel), named by `goType`. -/
inductive Any where
  | nil
  | bool (b : Bool)
  | string (s : String)
  | float64 (v : Int)
  | slice (xs : List Any)
  | map (m : List (String × Any))
  | other (goType : String)

/-- The struct `User` (main.go 15-20). -/
structure User where
  Username : String
  Avatar : String
  Level : Int
  HighestScore : Int
  deriving DecidableEq, Repr

/-- The struct `RegionAttribute` (main.go 22-26); its `OnlineUsers` field is commented
out in the source. -/
structure RegionAttribute where
  Population : Int
  TotalToken : Int
  deriving DecidableEq, Repr

/-- The struct `Item` (main.go 33-37). -/
structure Item where
  Region : String
  SK : String
  Attributes : Any

/-! ## Requests and the store facade -/

/-- The SDK struct `dynamodb.GetItemInput`, the fields the program sets. -/
structure GetItemInput where
  TableName : String
  Key : List (String × AttributeValue)
  ReturnConsumedCapacity : Option String

/-- The SDK struct `dynamodb.DeleteItemInput`, the fields the program sets. -/
structure DeleteItemInput where
  TableName : String
  Key : List (String × AttributeValue)

/-- The external collaborators of the program: the store client `svc` and the package
`dynamodbattribute`.  `svcGetItem` returns the `Item` field of the output (`none` when the
store holds no such record); `UnmarshalMap` is given once per target struct type, its `ok`
result being the filled target. -/
structure SDK where
  svcGetItem : GetItemInput → Except GoError (Option (List (String × AttributeValue)))
  svcDeleteItem : DeleteItemInput → Option GoError
  Marshal : Any → Except GoError AttributeValue
  UnmarshalMapItem : List (String × AttributeValue) → Except GoError Item
  UnmarshalMapRegionAttribute : List (String × AttributeValue) → Except GoError RegionAttribute
  UnmarshalMapUser : List (String × AttributeValue) → Except GoError User

/-- The request `GetItem` builds (main.go 73-83). -/
def getItemInput (tableName pk : String) : GetItemInput :=
  { TableName := tableName
    Key := [("region", .ofS pk), ("sk", .ofS ("REGION#" ++ pk))]
    ReturnConsumedCapacity := none }

/-- Embeds `GetItem` (main.go 72-99); `ok item` is the return `(item, nil)` and
`error err` the return `(nil, err)`. -/
def GetItem (sdk : SDK) (tableName pk : String) : Except GoError Item :=
  match sdk.svcGetItem (getItemInput tableName pk) with
  | .error err => .error (Errorf "failed to get item: " err)
  | .ok resultItem =>
    match resultItem with
    | none => .error (.plain "item not found")
    | some avs =>
      match sdk.UnmarshalMapItem avs with
      | .error err => .error (Errorf "failed to unmarshal item: " err)
      | .ok item => .ok item

/-- The request `DeleteItem` builds (main.go 121-128). -/
def deleteItemInput (tableName id : String) : DeleteItemInput :=
  { TableName := tableName
    Key := [("id", .ofS id)] }

/-- Embeds `DeleteItem` (main.go 120-136); the result is the returned `error`. -/
def DeleteItem (sdk : SDK) (tableName id : String) : Option GoError :=
  match sdk.svcDeleteItem (deleteItemInput tableName id) with
  | some err => some (Errorf "failed to delete item: " err)
  | none => none

/-! ## Dynamic projection -/

/-- The loop of `mapToStruct` (main.go 312-318) over the entries still to visit, with the
map `attributesAVMap` built so far. -/
def mapToStructLoop (sdk : SDK) :
    List (String × Any) → List (String × AttributeValue)
      → Except GoError (List (String × AttributeValue))
  | [], attributesAVMap => .ok attributesAVMap
  | (k, v) :: rest, attributesAVMap =>
    match sdk.Marshal v with
    | .error err => .error (.plain ("failed to marshal attribute " ++ k ++ ": " ++ err.Error))
    | .ok av => mapToStructLoop sdk rest (mapAssign attributesAVMap k av)

/-- Embeds `mapToStruct` (main.go 310-320) for a target of type `α`, whose `UnmarshalMap`
is passed in; `ok out` is a nil error with the target filled, `error err` the error. -/
def mapToStruct (sdk : SDK) (UnmarshalMap : List (String × AttributeValue) → Except GoError α)
    (m : List (String × Any)) : Except GoError α :=
  match mapToStructLoop sdk m [] with
  | .error err => .error err
  | .ok attributesAVMap => UnmarshalMap attributesAVMap

/-- The loop of `convertToUsers` (main.go 324-334) over the elements still to visit, with
the slice `users` appended to so far.  The result is the pair the function returns. -/
def convertToUsersLoop (sdk : SDK) : List Any → List User → List User × Option GoError
  | [], users => (users, none)
  | u :: rest, users =>
    match u with
    | .map userMap =>
      match mapToStruct sdk sdk.UnmarshalMapUser userMap with
      | .error err => ([], some (Errorf "failed to unmarshal user: " err))
      | .ok user => convertToUsersLoop sdk rest (users ++ [user])
    | _ => ([], some (.plain "failed to cast user to map[string]interface{}"))

/-- Embeds `convertToUsers` (main.go 322-336); a nil slice is the empty list. -/
def convertToUsers (sdk : SDK) (onlineUsers : List Any) : List User × Option GoError :=
  convertToUsersLoop sdk onlineUsers []

/-- The map index `attributesMap["online_users"]`: the nil interface when the key is
absent. -/
def indexAny (m : List (String × Any)) (k : String) : Any :=
  match mapIndex m k with
  | some v => v
  | none => .nil

/-- Embeds `getListOnlineUser` (main.go 277-308). -/
def getListOnlineUser (sdk : SDK) (region : String) : List User × Option GoError :=
  match GetItem sdk "hello-terraform" region with
  | .error err => ([], some (Errorf "failed to get item: " err))
  | .ok item =>
    match item.Attributes with
    | .map attributesMap =>
      match mapToStruct sdk sdk.UnmarshalMapRegionAttribute attributesMap with
      | .error err => ([], some (Errorf "failed to unmarshal item.Attributes: " err))
      | .ok _regionAttribute =>
        match indexAny attributesMap "online_users" with
        | .slice onlineUsers =>
          match convertToUsers sdk onlineUsers with
          | (_, some err) => ([], some err)
          | (users, none) => (users, none)
        | _ => ([], some (.plain "failed to cast online_users to []interface{}"))
    | _ => ([], some (.plain "failed to cast item.Attributes to map[string]interface{}"))

/-! ## The encode/decode package, for the shapes the scenarios use -/

namespace dynamodbattribute

/-- The value `{NULL: true}`. -/
def null : AttributeValue := .mk none none none none none none none none (some true) none

/-- The value `{BOOL: b}`. -/
def ofBool (b : Bool) : AttributeValue := .mk none none none none none none none none none (some b)

mutual
/-- Modelled from the spec: the encoder of the package `dynamodbattribute` (an SDK
package; it is not under src/), on the generic values of `Any`: "re-encode the raw generic
value through the Value Model encoder", which "fails with an `UnsupportedShapeError` for any
value whose runtime shape is not one of the permitted variants"; a number becomes the
`Number` variant, "decimal-textual, not binary float", so the float64 holding the integer `v`
becomes the N value with the decimal digits of `v`. -/
def Marshal : Any → Except GoError AttributeValue
  | .nil => .ok null
  | .bool b => .ok (ofBool b)
  | .string s => if s = "" then .ok null else .ok (.ofS s)
  | .float64 v => .ok (.ofN (toString v))
  | .slice xs =>
    match marshalList xs with
    | .error err => .error err
    | .ok l => .ok (.ofL l)
  | .map m =>
    match marshalEntries m with
    | .error err => .error err
    | .ok avs => .ok (.ofM avs)
  | .other goType =>
    .error (.aws ⟨"unsupportedMarshalTypeError",
      "Go value type " ++ goType ++ " is not supported"⟩)
/-- The encoder on the elements of a slice. -/
def marshalList : List Any → Except GoError (List AttributeValue)
  | [] => .ok []
  | x :: xs =>
    match Marshal x with
    | .error err => .error err
    | .ok av =>
      match marshalList xs with
      | .error err => .error err
      | .ok avs => .ok (av :: avs)
/-- The encoder on the entries of a map. -/
def marshalEntries : List (String × Any) → Except GoError (List (String × AttributeValue))
  | [] => .ok []
  | (k, x) :: m =>
    match Marshal x with
    | .error err => .error err
    | .ok av =>
      match marshalEntries m with
      | .error err => .error err
      | .ok avs => .ok ((k, av) :: avs)
end

/-- The value of a decimal digit. -/
def digit (c : Char) : Option Nat :=
  if '0' ≤ c ∧ c ≤ '9' then some (c.toNat - '0'.toNat) else none

/-- Reads a run of decimal digits, most significant first. -/
def parseDigits : List Char → Nat → Option Nat
  | [], acc => some acc
  | c :: cs, acc =>
    match digit c with
    | some d => parseDigits cs (acc * 10 + d)
    | none => none

/-- Modelled from the spec: the text-to-integer step of the typed-field decoder
(`strconv.ParseInt(n, 10, 64)` of the Go library; not under src/): an optional sign and at
least one decimal digit, within the 64-bit signed range. -/
def ParseInt (n : String) : Except GoError Int :=
  let invalidErr : GoError := .plain ("strconv.ParseInt: parsing \"" ++ n ++ "\": invalid syntax")
  let rangeErr : GoError :=
    .plain ("strconv.ParseInt: parsing \"" ++ n ++ "\": value out of range")
  let digits : List Char := match n.toList with
    | '-' :: cs => cs
    | '+' :: cs => cs
    | cs => cs
  let negative : Bool := match n.toList with
    | '-' :: _ => true
    | _ => false
  match digits with
  | [] => .error invalidErr
  | _ =>
    match parseDigits digits 0 with
    | none => .error invalidErr
    | some v =>
      if negative then
        if v ≤ 2 ^ 63 then .ok (-(v : Int)) else .error rangeErr
      else
        if v < 2 ^ 63 then .ok (v : Int) else .error rangeErr

/-- The name of the populated variant of a value with one populated tag. -/
def kindName : AttributeValue → String
  | .mk (some _) none none none none none none none none none => "string"
  | .mk none (some _) none none none none none none none none => "number"
  | .mk none none (some _) none none none none none none none => "binary"
  | .mk none none none (some _) none none none none none none => "string set"
  | .mk none none none none (some _) none none none none none => "number set"
  | .mk none none none none none (some _) none none none none => "binary set"
  | .mk none none none none none none (some _) none none none => "map"
  | .mk none none none none none none none (some _) none none => "list"
  | .mk none none none none none none none none (some _) none => "null"
  | .mk none none none none none none none none none (some _) => "bool"
  | _ => "attribute value"

/-- The error of the decoder when the attribute kind does not fit the field type. -/
def unmarshalTypeError (av : AttributeValue) (goType : String) : GoError :=
  .aws ⟨"UnmarshalTypeError",
    "cannot unmarshal " ++ kindName av ++ " into Go value type " ++ goType⟩

/-- Modelled from the spec: the "typed-field decoder for the field's declared type" of the
package `dynamodbattribute` (not under src/), for a field of type `string`, on a value with
one populated tag. -/
def decodeString : AttributeValue → Except GoError String
  | .mk (some s) none none none none none none none none none => .ok s
  | .mk none (some n) none none none none none none none none => .ok n
  | .mk none none none none none none none none (some _) none => .ok ""
  | av => .error (unmarshalTypeError av "string")

/-- Modelled from the spec: the "typed-field decoder for the field's declared type" of the
package `dynamodbattribute` (not under src/), for a field of type `int`, on a value with
one populated tag: the decimal text of an N value is read as an integer. -/
def decodeInt : AttributeValue → Except GoError Int
  | .mk none (some n) none none none none none none none none => ParseInt n
  | .mk none none none none none none none none (some _) none => .ok 0
  | av => .error (unmarshalTypeError av "int")

/-- Decodes one entry of the attribute map into the `User` field whose `json` tag
(main.go 16-19) is the entry's key; an entry with no such field is skipped. -/
def decodeUserEntry (out : User) (k : String) (av : AttributeValue) : Except GoError User :=
  if k = "username" then
    match decodeString av with
    | .error err => .error err
    | .ok s => .ok { out with Username := s }
  else if k = "avatar" then
    match decodeString av with
    | .error err => .error err
    | .ok s => .ok { out with Avatar := s }
  else if k = "level" then
    match decodeInt av with
    | .error err => .error err
    | .ok i => .ok { out with Level := i }
  else if k = "highest_score" then
    match decodeInt av with
    | .error err => .error err
    | .ok i => .ok { out with HighestScore := i }
  else .ok out

/-- Decodes one entry of the attribute map into the `RegionAttribute` field whose `json`
tag (main.go 23-25) is the entry's key; an entry with no such field is skipped. -/
def decodeRegionAttributeEntry (out : RegionAttribute) (k : String) (av : AttributeValue) :
    Except GoError RegionAttribute :=
  if k = "population" then
    match decodeInt av with
    | .error err => .error err
    | .ok i => .ok { out with Population := i }
  else if k = "total_token" then
    match decodeInt av with
    | .error err => .error err
    | .ok i => .ok { out with TotalToken := i }
  else .ok out

/-- Runs an entry decoder over the entries of an attribute map, from the zero value. -/
def decodeEntries (decodeEntry : α → String → AttributeValue → Except GoError α) :
    List (String × AttributeValue) → α → Except GoError α
  | [], out => .ok out
  | (k, av) :: rest, out =>
    match decodeEntry out k av with
    | .error err => .error err
    | .ok out => decodeEntries decodeEntry rest out

/-- Modelled from the spec: `UnmarshalMap` of the package `dynamodbattribute` (not under
src/) into a `User`: "for every field of `targetShape`, look up the field's store-facing key"
and decode the value "through the Value Model's typed-field decoder for the field's declared
type". -/
def UnmarshalMapUser (m : List (String × AttributeValue)) : Except GoError User :=
  decodeEntries decodeUserEntry m ⟨"", "", 0, 0⟩

/-- Modelled from the spec: `UnmarshalMap` of the package `dynamodbattribute` (not under
src/) into a `RegionAttribute`, as for `User`. -/
def UnmarshalMapRegionAttribute (m : List (String × AttributeValue)) :
    Except GoError RegionAttribute :=
  decodeEntries decodeRegionAttributeEntry m ⟨0, 0⟩

end dynamodbattribute

/-- A stub of the store for one fetched record: `svc.GetItem` finds a record and its decode
is `fetched`; encode and typed decode are those of `dynamodbattribute`. -/
def stubSDK (fetched : Item) : SDK :=
  { svcGetItem := fun _ => .ok (some [])
    svcDeleteItem := fun _ => none
    Marshal := dynamodbattribute.Marshal
    UnmarshalMapItem := fun _ => .ok fetched
    UnmarshalMapRegionAttribute := dynamodbattribute.UnmarshalMapRegionAttribute
    UnmarshalMapUser := dynamodbattribute.UnmarshalMapUser }

/-- The generic user mapping of Scenario A. -/
def scenarioAUser : Any :=
  .map [("username", .string "user1"), ("avatar", .string "avatar1"),
        ("level", .float64 1), ("highest_score", .float64 100)]

/-- The generic mapping of Scenario A. -/
def scenarioA : List (String × Any) :=
  [("population", .float64 5), ("total_token", .float64 100),
   ("online_users", .slice [scenarioAUser])]

/-- The generic mapping of Scenario A with no online user. -/
def scenarioANoUsers : List (String × Any) :=
  [("population", .float64 5), ("total_token", .float64 100), ("online_users", .slice [])]

/-- The generic mapping of Scenario B. -/
def scenarioB : List (String × Any) := [("population", .float64 5)]

/-- The user `user1` of the scenarios and of `seed`. -/
def user1 : User := ⟨"user1", "avatar1", 1, 100⟩

/-- The record fetched in Scenario A. -/
def itemA : Item := ⟨"VN", "REGION#VN", .map scenarioA⟩

/-- The record of Scenario A with no online user. -/
def itemANoUsers : Item := ⟨"VN", "REGION#VN", .map scenarioANoUsers⟩

/-- The record fetched in Scenario B. -/
def itemB : Item := ⟨"VN", "REGION#VN", .map scenarioB⟩

/-- A generic user mapping whose `level` is a string, which the typed decoder rejects. -/
def badLevelUser : List (String × Any) :=
  [("username", .string "user2"), ("level", .string "high")]

/-! ## The concurrent read harness

`sample` (main.go 138-199) as a transition system: the main goroutine and the goroutines it
launches take steps one at a time, in any order; shared state is the WaitGroup counter, the
mutex and `throttledCount`. -/

/-- The constant `numRequests` of `sample` (main.go 160). -/
def numRequests : Nat := 100

/-- Control points of a goroutine launched by `sample` (main.go 166-192): `call` while
`svc.GetItem` (183) has not returned, `check` at `if err != nil` (184), `lock` before
`mu.Lock()` (186), `load` and `store` for the read and the write of `throttledCount++`
(187), `unlock` before `mu.Unlock()` (188), `deferred` before the deferred `wg.Done()`
(167), `exited` after it. -/
inductive Pc where
  | call
  | check
  | lock
  | load
  | store (tmp : Nat)
  | unlock
  | deferred
  | exited
  deriving DecidableEq, Repr

/-- A launched goroutine: its control point and its local `err`, the error `svc.GetItem`
returned to it (nil before the call returns and on success). -/
structure Goroutine where
  pc : Pc
  err : Option GoError
  deriving DecidableEq, Repr

/-- Control points of `sample` itself: `loop` at the test `i < numRequests` (163), `add` at
`wg.Add(1)` (164), `go` at the go statement (166), `wait` at `wg.Wait()` (196), `print` at
the report (198), `returned` after it. -/
inductive MainPc where
  | loop
  | add
  | go
  | wait
  | print
  | returned
  deriving DecidableEq, Repr

/-- The state of a run of `sample`: loop variable, control point of `sample`, WaitGroup
counter, whether the mutex is held, the counter, the goroutines launched so far (the
goroutine with `requestID` j at index j), and the count reported, once it is. -/
structure Harness where
  i : Nat
  mainPc : MainPc
  wg : Nat
  mu : Bool
  throttledCount : Nat
  goroutines : List Goroutine
  printed : Option Nat
  deriving DecidableEq, Repr

/-- One scheduling choice: `sample` takes its next step, the store answers the pending read
of a goroutine with an error (`none` for success), or a goroutine takes its next step. -/
inductive Action where
  | main
  | reply (requestID : Nat) (err : Option GoError)
  | run (requestID : Nat)
  deriving DecidableEq, Repr

/-- The state before `sample` enters its loop. -/
def Harness.init : Harness :=
  { i := 0, mainPc := .loop, wg := 0, mu := false, throttledCount := 0, goroutines := [],
    printed := none }

/-- Replaces the goroutine `requestID`. -/
def Harness.put (s : Harness) (requestID : Nat) (g : Goroutine) : Harness :=
  { s with goroutines := s.goroutines.set requestID g }

/-- The next step of goroutine `requestID`, now `g`, after its read has returned
(main.go 184-191 and the deferred call of 167); `none` when the goroutine cannot step: it
has exited, waits for the reply, or blocks on the held mutex (a `Done` on a zero counter
or an `Unlock` of a free mutex, fatal in Go, do not step either). -/
def stepGoroutine (s : Harness) (requestID : Nat) (g : Goroutine) : Option Harness :=
  match g.pc with
  | .call => none
  | .check =>
    if g.err ≠ none then
      if isThrottlingError g.err then some (s.put requestID { g with pc := .lock })
      else some (s.put requestID { g with pc := .deferred })
    else some (s.put requestID { g with pc := .deferred })
  | .lock =>
    if s.mu then none
    else some ({ s with mu := true }.put requestID { g with pc := .load })
  | .load => some (s.put requestID { g with pc := .store s.throttledCount })
  | .store tmp =>
    some ({ s with throttledCount := tmp + 1 }.put requestID { g with pc := .unlock })
  | .unlock =>
    if s.mu then some ({ s with mu := false }.put requestID { g with pc := .deferred })
    else none
  | .deferred =>
    if s.wg = 0 then none
    else some ({ s with wg := s.wg - 1 }.put requestID { g with pc := .exited })
  | .exited => none

/-- One step of the harness under a scheduling choice; `none` when the choice is not
enabled in the state. -/
def step (s : Harness) : Action → Option Harness
  | .main =>
    match s.mainPc with
    | .loop =>
      if s.i < numRequests then some { s with mainPc := .add }
      else some { s with mainPc := .wait }
    | .add => some { s with wg := s.wg + 1, mainPc := .go }
    | .go =>
      some { s with goroutines := s.goroutines ++ [{ pc := .call, err := none }],
                    i := s.i + 1, mainPc := .loop }
    | .wait => if s.wg = 0 then some { s with mainPc := .print } else none
    | .print => some { s with printed := some s.throttledCount, mainPc := .returned }
    | .returned => none
  | .reply requestID err =>
    match s.goroutines[requestID]? with
    | some g =>
      if g.pc = .call then some (s.put requestID { pc := .check, err := err }) else none
    | none => none
  | .run requestID =>
    match s.goroutines[requestID]? with
    | some g => stepGoroutine s requestID g
    | none => none

/-- Runs a schedule, a list of scheduling choices, from a state; `none` when some choice is
not enabled where it is made. -/
def run (s : Harness) : List Action → Option Harness
  | [] => some s
  | a :: schedule =>
    match step s a with
    | some s' => run s' schedule
    | none => none

/-- The number of reads of a run whose error `isThrottlingError` classifies as throttling. -/
def throttledReads (s : Harness) : Nat :=
  s.goroutines.countP (fun g => isThrottlingError g.err)

/-- The error the stub store of Scenario D answers read `requestID` with: a throttling
error on every third call, another service error on every seventh, success otherwise. -/
def everyThird (requestID : Nat) : Option GoError :=
  if requestID % 3 = 0 then
    some (.aws ⟨ErrCodeProvisionedThroughputExceededException, "rate exceeded"⟩)
  else if requestID % 7 = 0 then some (.aws ⟨"InternalServerError", "try again"⟩)
  else none

/-- The steps of one goroutine from its launch to its exit, given the store's answer. -/
def goroutineSchedule (requestID : Nat) (err : Option GoError) : List Action :=
  .reply requestID err ::
    (if isThrottlingError err then List.replicate 6 (.run requestID)
     else List.replicate 2 (.run requestID))

/-- A schedule that launches all reads first and then lets them run in reverse launch
order, each to its end, before `sample` waits and reports. -/
def launchAllThenReverse : List Action :=
  List.replicate (3 * numRequests + 1) .main
    ++ ((List.range numRequests).reverse.map (fun j => goroutineSchedule j (everyThird j))).flatten
    ++ [.main, .main]

/-- The goroutine has not yet run its deferred `wg.Done()`. -/
def Goroutine.alive (g : Goroutine) : Bool :=
  match g.pc with
  | .exited => false
  | _ => true

/-- The goroutine is between `mu.Lock()` and `mu.Unlock()`. -/
def Goroutine.holdsLock (g : Goroutine) : Bool :=
  match g.pc with
  | .load => true
  | .store _ => true
  | .unlock => true
  | _ => false

/-- The goroutine is inside the branch `if isThrottlingError(err)`. -/
def Goroutine.inBranch (g : Goroutine) : Bool :=
  match g.pc with
  | .lock => true
  | .load => true
  | .store _ => true
  | .unlock => true
  | _ => false

/-- The goroutine has written its increment of `throttledCount`. -/
def Goroutine.counted (g : Goroutine) : Bool :=
  match g.pc with
  | .unlock => isThrottlingError g.err
  | .deferred => isThrottlingError g.err
  | .exited => isThrottlingError g.err
  | _ => false

/-- The steps a goroutine has left at most. -/
def Goroutine.stepsLeft (g : Goroutine) : Nat :=
  match g.pc with
  | .call => 7
  | .check => 6
  | .lock => 5
  | .load => 4
  | .store _ => 3
  | .unlock => 2
  | .deferred => 1
  | .exited => 0

/-- The steps a run has left at most: those of `sample`, of the goroutines launched and of
the goroutines still to launch. -/
def Harness.stepsLeft (s : Harness) : Nat :=
  (s.goroutines.map Goroutine.stepsLeft).sum +
    match s.mainPc with
    | .loop => 10 * (numRequests - s.i) + 3
    | .add => 10 * (numRequests - s.i) + 2
    | .go => 10 * (numRequests - s.i) + 1
    | .wait => 2
    | .print => 1
    | .returned => 0

/-- The invariant of the harness: the goroutines launched are those of the loop so far, the
WaitGroup counter counts the goroutines that have not exited, the mutex is held exactly
when one goroutine is in the critical section, and `throttledCount` counts the goroutines
that have written their increment. -/
structure Inv (s : Harness) : Prop where
  length_eq : s.goroutines.length = s.i
  i_le : s.i ≤ numRequests
  launching : (s.mainPc = .add ∨ s.mainPc = .go) → s.i < numRequests
  launched : (s.mainPc = .wait ∨ s.mainPc = .print ∨ s.mainPc = .returned) →
    s.i = numRequests
  wg_eq : s.wg = s.goroutines.countP Goroutine.alive + (if s.mainPc = .go then 1 else 0)
  mu_eq : s.goroutines.countP Goroutine.holdsLock = (if s.mu = true then 1 else 0)
  tmp_eq : ∀ g ∈ s.goroutines, ∀ tmp, g.pc = .store tmp → tmp = s.throttledCount
  count_eq : s.throttledCount = s.goroutines.countP Goroutine.counted
  throttled : ∀ g ∈ s.goroutines, g.inBranch = true → isThrottlingError g.err = true
  finished : (s.mainPc = .print ∨ s.mainPc = .returned) → s.wg = 0
  printed_eq : ∀ c, s.printed = some c → c = s.throttledCount ∧ s.mainPc = .returned
  returned_printed : s.mainPc = .returned → s.printed = some s.throttledCount

/-- The state in which the schedule `launchAllThenReverse` ends. -/
def reportedState : Harness :=
  { i := 100, mainPc := .returned, wg := 0, mu := false, throttledCount := 34,
    goroutines := (List.range 100).map (fun j => { pc := .exited, err := everyThird j }),
    printed := some 34 }

/-! ## Theorems -/

/-! ## Helper lemmas on the size loops -/

theorem foldl_add_len (f : α → Nat) (xs : List α) (size : Nat) :
    xs.foldl (fun size x => size + f x) size = size + (xs.map f).sum := by
  induction xs generalizing size with
  | nil => simp
  | cons x xs ih => simp [ih, Nat.add_assoc]

theorem rangeM_eq (m : List (String × AttributeValue)) (size : Nat) :
    rangeM m size
      = size + (m.map (fun kv => len kv.1 + calculateAttributeValueSize kv.2)).sum := by
  induction m generalizing size with
  | nil => simp [rangeM]
  | cons kv m ih =>
    obtain ⟨k, v⟩ := kv
    simp [rangeM, ih, Nat.add_assoc]

theorem rangeL_eq (l : List AttributeValue) (size : Nat) :
    rangeL l size = size + (l.map calculateAttributeValueSize).sum := by
  induction l generalizing size with
  | nil => simp [rangeL]
  | cons v l ih => simp [rangeL, ih, Nat.add_assoc]

theorem ifSet_add (f : α → Nat) (o : Option α) (size : Nat) :
    ifSet o (fun a => size + f a) size = size + part f o := by
  cases o <;> rfl

theorem ifSet_zero (f : α → Nat) (o : Option α) : ifSet o f 0 = part f o := by
  cases o <;> rfl

theorem part_none (f : α → Nat) : part f none = 0 := rfl

theorem part_some (f : α → Nat) (a : α) : part f (some a) = f a := rfl

theorem ifSet_foldl (f : α → Nat) (o : Option (List α)) (size : Nat) :
    ifSet o (fun xs => xs.foldl (fun size x => size + f x) size) size
      = size + part (fun xs => (xs.map f).sum) o := by
  cases o <;> simp [ifSet, part, foldl_add_len]

theorem calculateAttributeValueSize_eq (S N : Option String) (B : Option (List UInt8))
    (SS NS : Option (List String)) (BS : Option (List (List UInt8)))
    (M : Option (List (String × AttributeValue))) (L : Option (List AttributeValue))
    (NULL BOOL : Option Bool) :
    calculateAttributeValueSize (.mk S N B SS NS BS M L NULL BOOL)
      = part len S + part len N + part List.length B
        + part (fun ss => (ss.map len).sum) SS + part (fun ns => (ns.map len).sum) NS
        + part (fun bs => (bs.map List.length).sum) BS
        + part (fun m => (m.map (fun kv => len kv.1 + calculateAttributeValueSize kv.2)).sum) M
        + part (fun l => (l.map calculateAttributeValueSize).sum) L
        + part (fun _ => 1) NULL + part (fun _ => 1) BOOL := by
  conv_lhs => unfold calculateAttributeValueSize
  cases M <;> cases L <;>
    simp only [ifSet_add, ifSet_foldl, ifSet_zero, rangeM_eq, rangeL_eq, Nat.zero_add,
      Nat.add_zero, part_none, part_some]

theorem tag_some (a : α) : tag (some a) = 1 := rfl

theorem tag_eq_zero_iff (o : Option α) : tag o = 0 ↔ o = none := by
  cases o <;> simp [tag]

/-- C1: on a value with exactly one populated variant tag, `calculateAttributeValueSize`
(a total function, so it terminates on every finite value) returns the length of the scalar
for S, N and B, the sum of the member lengths for SS, NS and BS, the sum over the entries of
key length plus the size of the entry's value for M, the sum of the element sizes for L, and
1 for NULL and for BOOL whatever boolean the leaf carries. -/
theorem calculateAttributeValueSize_single_tag (v : AttributeValue) (h : populated v = 1) :
    (∀ s, v.S = some s → calculateAttributeValueSize v = len s) ∧
    (∀ n, v.N = some n → calculateAttributeValueSize v = len n) ∧
    (∀ b, v.B = some b → calculateAttributeValueSize v = b.length) ∧
    (∀ ss, v.SS = some ss → calculateAttributeValueSize v = (ss.map len).sum) ∧
    (∀ ns, v.NS = some ns → calculateAttributeValueSize v = (ns.map len).sum) ∧
    (∀ bs, v.BS = some bs → calculateAttributeValueSize v = (bs.map List.length).sum) ∧
    (∀ m, v.M = some m → calculateAttributeValueSize v
        = (m.map (fun kv => len kv.1 + calculateAttributeValueSize kv.2)).sum) ∧
    (∀ l, v.L = some l → calculateAttributeValueSize v
        = (l.map calculateAttributeValueSize).sum) ∧
    (∀ b, v.NULL = some b → calculateAttributeValueSize v = 1) ∧
    (∀ b, v.BOOL = some b → calculateAttributeValueSize v = 1) := by
  obtain ⟨S, N, B, SS, NS, BS, M, L, NULL, BOOL⟩ := v
  rw [calculateAttributeValueSize_eq]
  simp only [populated, AttributeValue.S, AttributeValue.N, AttributeValue.B, AttributeValue.SS,
    AttributeValue.NS, AttributeValue.BS, AttributeValue.M, AttributeValue.L,
    AttributeValue.NULL, AttributeValue.BOOL] at h ⊢
  refine ⟨?_, ?_, ?_, ?_, ?_, ?_, ?_, ?_, ?_, ?_⟩
  all_goals
    intro x hx
    subst hx
    simp only [tag_some] at h
    try (have hS : tag S = 0 := by omega)
    try (have hN : tag N = 0 := by omega)
    try (have hB : tag B = 0 := by omega)
    try (have hSS : tag SS = 0 := by omega)
    try (have hNS : tag NS = 0 := by omega)
    try (have hBS : tag BS = 0 := by omega)
    try (have hM : tag M = 0 := by omega)
    try (have hL : tag L = 0 := by omega)
    try (have hNULL : tag NULL = 0 := by omega)
    try (have hBOOL : tag BOOL = 0 := by omega)
    simp only [tag_eq_zero_iff] at *
    subst_vars
    simp [part]

theorem calculateAttributeValueSize_single_tag_witness :
    populated sampleValue = 1 ∧
    calculateAttributeValueSize sampleValue
      = ([("k", AttributeValue.ofL [.ofS "ab", .ofN "12"]),
          ("flag", AttributeValue.mk none none none none none none none none none (some true))].map
            (fun kv => len kv.1 + calculateAttributeValueSize kv.2)).sum ∧
    calculateAttributeValueSize sampleValue = 10 :=
  ⟨by decide,
   (calculateAttributeValueSize_single_tag sampleValue (by decide)).2.2.2.2.2.2.1 _ rfl,
   by decide⟩

theorem mapAssign_of_not_mem (m : List (String × β)) (k : String) (e : β) (h : k ∉ keys m) :
    mapAssign m k e = m ++ [(k, e)] := by
  induction m with
  | nil => rfl
  | cons kv m ih =>
    obtain ⟨k', e'⟩ := kv
    simp only [keys, List.map_cons, List.mem_cons, not_or] at h
    have hne : ¬ k' = k := fun hk => h.1 hk.symm
    simp only [mapAssign, hne, if_false, List.cons_append]
    rw [ih h.2]

/-- C2: `calculateAttributeValueSize` is monotonic under append: appending an element to
the list of a List value, or assigning an entry under a key not yet present to the map of a
Map value, never decreases the size. -/
theorem calculateAttributeValueSize_monotonic_append :
    (∀ (v : AttributeValue) (l : List AttributeValue) (e : AttributeValue), v.L = some l →
      calculateAttributeValueSize (v.setL (l ++ [e])) ≥ calculateAttributeValueSize v) ∧
    (∀ (v : AttributeValue) (m : List (String × AttributeValue)) (k : String)
      (e : AttributeValue), v.M = some m → k ∉ keys m →
      calculateAttributeValueSize (v.setM (mapAssign m k e))
        ≥ calculateAttributeValueSize v) := by
  constructor
  · intro v l e hl
    obtain ⟨S, N, B, SS, NS, BS, M, L, NULL, BOOL⟩ := v
    simp only [AttributeValue.L] at hl
    subst hl
    simp only [AttributeValue.setL, calculateAttributeValueSize_eq, part_some, List.map_append,
      List.sum_append]
    omega
  · intro v m k e hm hk
    obtain ⟨S, N, B, SS, NS, BS, M, L, NULL, BOOL⟩ := v
    simp only [AttributeValue.M] at hm
    subst hm
    simp only [AttributeValue.setM, calculateAttributeValueSize_eq, part_some,
      mapAssign_of_not_mem m k e hk, List.map_append, List.sum_append]
    omega

theorem calculateAttributeValueSize_monotonic_append_witness :
    calculateAttributeValueSize
        ((AttributeValue.ofL [.ofS "ab"]).setL ([.ofS "ab"] ++ [.ofN "12"]))
      ≥ calculateAttributeValueSize (AttributeValue.ofL [.ofS "ab"]) ∧
    "n" ∉ keys [("s", AttributeValue.ofS "ab")] ∧
    calculateAttributeValueSize
        ((AttributeValue.ofM [("s", .ofS "ab")]).setM
          (mapAssign [("s", .ofS "ab")] "n" (.ofN "12")))
      ≥ calculateAttributeValueSize (AttributeValue.ofM [("s", .ofS "ab")]) :=
  ⟨calculateAttributeValueSize_monotonic_append.1 (.ofL [.ofS "ab"]) [.ofS "ab"] (.ofN "12") rfl,
   by decide,
   calculateAttributeValueSize_monotonic_append.2 (.ofM [("s", .ofS "ab")])
     [("s", .ofS "ab")] "n" (.ofN "12") rfl (by decide)⟩

theorem sum_map_add_nat (f g : α → Nat) (xs : List α) :
    (xs.map (fun x => f x + g x)).sum = (xs.map f).sum + (xs.map g).sum := by
  induction xs with
  | nil => rfl
  | cons x xs ih => simp only [List.map_cons, List.sum_cons, ih]; omega

/-- C10: `calculateItemSize` adds up the sizes of the item's values and not the names of
its top-level attributes, whereas `calculateAttributeValueSize` of the Map value holding the
same entries adds the key lengths as well; on the item `seed` builds for `user1` the two
are 92 and 110. -/
theorem calculateItemSize_omits_top_level_keys :
    (∀ item : List (String × AttributeValue),
      calculateItemSize item = (item.map (fun kv => calculateAttributeValueSize kv.2)).sum ∧
      calculateAttributeValueSize (.ofM item)
        = calculateItemSize item + (item.map (fun kv => len kv.1)).sum) ∧
    calculateItemSize seedItemUser1 = 92 ∧
    calculateAttributeValueSize (.ofM seedItemUser1) = 110 := by
  refine ⟨fun item => ?_, by decide, by decide⟩
  have h1 : calculateItemSize item
      = (item.map (fun kv => calculateAttributeValueSize kv.2)).sum := by
    simp [calculateItemSize, foldl_add_len]
  refine ⟨h1, ?_⟩
  rw [h1, AttributeValue.ofM, calculateAttributeValueSize_eq]
  simp only [part_none, part_some, Nat.zero_add, Nat.add_zero]
  rw [sum_map_add_nat, Nat.add_comm]

/-! ## Classification of throttling errors -/

/-- C7: `isThrottlingError` classifies by error code and never by message text: it is true
exactly for a value implementing `awserr.Error` whose code is the provisioned-throughput
code; two such values with the same code and different messages are classified alike; and
an error that is no `awserr.Error` is never throttling, even when its text names the code
(as the error `GetItem` wraps around a throttling error does). -/
theorem isThrottlingError_iff_code :
    (∀ err : Option GoError, isThrottlingError err = true ↔
      ∃ e : AwsErr, err = some (.aws e) ∧
        e.Code = ErrCodeProvisionedThroughputExceededException) ∧
    (∀ code message message' : String,
      isThrottlingError (some (.aws ⟨code, message⟩))
        = isThrottlingError (some (.aws ⟨code, message'⟩))) ∧
    (∀ text : String, isThrottlingError (some (.plain text)) = false) ∧
    isThrottlingError none = false ∧
    isThrottlingError (some (Errorf "failed to get item: "
      (.aws ⟨ErrCodeProvisionedThroughputExceededException, "rate exceeded"⟩))) = false ∧
    (Errorf "failed to get item: "
      (.aws ⟨ErrCodeProvisionedThroughputExceededException, "rate exceeded"⟩)).Error
      = "failed to get item: ProvisionedThroughputExceededException: rate exceeded" := by
  refine ⟨?_, ?_, ?_, rfl, rfl, by decide⟩
  · intro err
    constructor
    · intro h
      match err, h with
      | some (.aws e), h =>
        refine ⟨e, rfl, ?_⟩
        simp only [isThrottlingError, asAwsErr] at h
        by_contra hne
        simp [hne] at h
      | some (.plain _), h => simp [isThrottlingError, asAwsErr] at h
      | none, h => simp [isThrottlingError, asAwsErr] at h
    · rintro ⟨e, rfl, he⟩
      simp [isThrottlingError, asAwsErr, he]
  · intro code message message'
    rfl
  · intro text
    rfl

/-! ## Keys of the requests -/

theorem getItemInput_key (tableName pk : String) :
    (getItemInput tableName pk).Key
      = [("region", .ofS pk), ("sk", .ofS ("REGION#" ++ pk))] := rfl

/-- C9, at the failing input: the request `DeleteItem` builds for the id `VN` is keyed by
the single attribute name `id`, neither `region` nor `sk`, whereas the request `GetItem`
builds for every `pk` is keyed by `region` and `sk`. -/
theorem deleteItemInput_key_is_id :
    (deleteItemInput "hello-terraform" "VN").Key = [("id", .ofS "VN")] ∧
    keys (deleteItemInput "hello-terraform" "VN").Key = ["id"] ∧
    "region" ∉ keys (deleteItemInput "hello-terraform" "VN").Key ∧
    "sk" ∉ keys (deleteItemInput "hello-terraform" "VN").Key ∧
    (∀ tableName pk : String, keys (getItemInput tableName pk).Key = ["region", "sk"]) := by
  refine ⟨rfl, rfl, by decide, by decide, fun _ _ => rfl⟩

/-! ## Projection -/

theorem convertToUsersLoop_error_nil (sdk : SDK) (xs : List Any) (users : List User)
    (h : (convertToUsersLoop sdk xs users).2 ≠ none) :
    (convertToUsersLoop sdk xs users).1 = [] := by
  induction xs generalizing users with
  | nil => simp [convertToUsersLoop] at h
  | cons u rest ih =>
    cases u with
    | map userMap =>
      simp only [convertToUsersLoop] at h ⊢
      cases hm : mapToStruct sdk sdk.UnmarshalMapUser userMap with
      | error err => rfl
      | ok user =>
        rw [hm] at h
        exact ih _ h
    | _ => rfl

theorem convertToUsersLoop_not_map (sdk : SDK) (xs : List Any) (users : List User)
    (h : ∃ x ∈ xs, ∀ userMap, x ≠ Any.map userMap) :
    (convertToUsersLoop sdk xs users).2 ≠ none := by
  induction xs generalizing users with
  | nil => simp at h
  | cons u rest ih =>
    cases u with
    | map userMap =>
      simp only [convertToUsersLoop]
      cases hm : mapToStruct sdk sdk.UnmarshalMapUser userMap with
      | error err => simp
      | ok user =>
        obtain ⟨x, hx, hnot⟩ := h
        rcases List.mem_cons.mp hx with rfl | hx
        · exact absurd rfl (hnot userMap)
        · exact ih _ ⟨x, hx, hnot⟩
    | _ => simp [convertToUsersLoop]

theorem convertToUsersLoop_ok (sdk : SDK) (xs : List Any) (us users : List User)
    (h : List.Forall₂ (fun x u => ∃ userMap, x = Any.map userMap ∧
      mapToStruct sdk sdk.UnmarshalMapUser userMap = .ok u) xs us) :
    convertToUsersLoop sdk xs users = (users ++ us, none) := by
  induction h generalizing users with
  | nil => simp [convertToUsersLoop]
  | cons hxu _ ih =>
    obtain ⟨userMap, rfl, hm⟩ := hxu
    simp only [convertToUsersLoop, hm]
    rw [ih]
    simp

theorem convertToUsersLoop_append (sdk : SDK) (pre rest : List Any) (us users : List User)
    (h : List.Forall₂ (fun x u => ∃ userMap, x = Any.map userMap ∧
      mapToStruct sdk sdk.UnmarshalMapUser userMap = .ok u) pre us) :
    convertToUsersLoop sdk (pre ++ rest) users = convertToUsersLoop sdk rest (users ++ us) := by
  induction h generalizing users with
  | nil => simp
  | cons hxu _ ih =>
    obtain ⟨userMap, rfl, hm⟩ := hxu
    rw [List.cons_append]
    simp only [convertToUsersLoop, hm]
    rw [ih]
    simp

theorem exists_forall₂_of_forall (sdk : SDK) (xs : List Any)
    (h : ∀ x ∈ xs, ∃ userMap user, x = Any.map userMap ∧
      mapToStruct sdk sdk.UnmarshalMapUser userMap = .ok user) :
    ∃ us, List.Forall₂ (fun x u => ∃ userMap, x = Any.map userMap ∧
      mapToStruct sdk sdk.UnmarshalMapUser userMap = .ok u) xs us := by
  induction xs with
  | nil => exact ⟨[], List.Forall₂.nil⟩
  | cons x xs ih =>
    obtain ⟨us, hus⟩ := ih (fun y hy => h y (List.mem_cons_of_mem _ hy))
    obtain ⟨userMap, user, hx, hm⟩ := h x (List.mem_cons_self _ _)
    exact ⟨user :: us, List.Forall₂.cons ⟨userMap, hx, hm⟩ hus⟩

/-- C4: when every element of the input list is a string-keyed mapping that `mapToStruct`
projects into a `User` without error, `convertToUsers` succeeds and returns a sequence of
the same length whose i-th user is the `mapToStruct` projection of the i-th element. -/
theorem convertToUsers_projects_each_element (sdk : SDK) (onlineUsers : List Any)
    (h : ∀ x ∈ onlineUsers, ∃ userMap user, x = Any.map userMap ∧
      mapToStruct sdk sdk.UnmarshalMapUser userMap = .ok user) :
    ∃ users, convertToUsers sdk onlineUsers = (users, none) ∧
      users.length = onlineUsers.length ∧
      ∀ (i : Nat) (hi : i < onlineUsers.length) (hu : i < users.length),
        ∃ userMap, onlineUsers[i] = Any.map userMap ∧
          mapToStruct sdk sdk.UnmarshalMapUser userMap = .ok users[i] := by
  obtain ⟨us, hus⟩ := exists_forall₂_of_forall sdk onlineUsers h
  refine ⟨us, ?_, hus.length_eq.symm, ?_⟩
  · rw [convertToUsers, convertToUsersLoop_ok sdk onlineUsers us [] hus]
    simp
  · intro i hi hu
    exact (List.forall₂_iff_get.mp hus).2 i hi hu

theorem convertToUsers_projects_each_element_witness :
    (∀ x ∈ [scenarioAUser, scenarioAUser], ∃ userMap user, x = Any.map userMap ∧
      mapToStruct (stubSDK itemA) (stubSDK itemA).UnmarshalMapUser userMap = .ok user) ∧
    (∃ users, convertToUsers (stubSDK itemA) [scenarioAUser, scenarioAUser] = (users, none) ∧
      users.length = [scenarioAUser, scenarioAUser].length ∧
      ∀ (i : Nat) (hi : i < [scenarioAUser, scenarioAUser].length) (hu : i < users.length),
        ∃ userMap, [scenarioAUser, scenarioAUser][i] = Any.map userMap ∧
          mapToStruct (stubSDK itemA) (stubSDK itemA).UnmarshalMapUser userMap
            = .ok users[i]) ∧
    convertToUsers (stubSDK itemA) [scenarioAUser, scenarioAUser] = ([user1, user1], none) :=
  have h : ∀ x ∈ [scenarioAUser, scenarioAUser], ∃ userMap user, x = Any.map userMap ∧
      mapToStruct (stubSDK itemA) (stubSDK itemA).UnmarshalMapUser userMap = .ok user := by
    intro x hx
    simp only [List.mem_cons, List.mem_singleton, List.not_mem_nil, or_false, or_self] at hx
    subst hx
    exact ⟨_, user1, rfl, rfl⟩
  ⟨h, convertToUsers_projects_each_element (stubSDK itemA) [scenarioAUser, scenarioAUser] h,
    by decide⟩

/-- C5: `convertToUsers` aborts at the first failing element and returns no partial result:
whenever it returns an error the returned user sequence is nil, also after elements were
projected; and after successfully projected elements `pre`, a first failing element decides
the result whatever the elements `rest` after it are: the cast error when it is not a
mapping, the wrapped `mapToStruct` error when its projection fails. -/
theorem convertToUsers_aborts_at_first_failure (sdk : SDK) :
    (∀ onlineUsers : List Any, (convertToUsers sdk onlineUsers).2 ≠ none →
      (convertToUsers sdk onlineUsers).1 = []) ∧
    (∀ (pre : List Any) (us : List User) (x : Any) (rest : List Any),
      List.Forall₂ (fun x u => ∃ userMap, x = Any.map userMap ∧
        mapToStruct sdk sdk.UnmarshalMapUser userMap = .ok u) pre us →
      (∀ userMap, x ≠ Any.map userMap) →
      convertToUsers sdk (pre ++ x :: rest)
        = ([], some (.plain "failed to cast user to map[string]interface{}"))) ∧
    (∀ (pre : List Any) (us : List User) (userMap : List (String × Any)) (err : GoError)
      (rest : List Any),
      List.Forall₂ (fun x u => ∃ userMap, x = Any.map userMap ∧
        mapToStruct sdk sdk.UnmarshalMapUser userMap = .ok u) pre us →
      mapToStruct sdk sdk.UnmarshalMapUser userMap = .error err →
      convertToUsers sdk (pre ++ Any.map userMap :: rest)
        = ([], some (Errorf "failed to unmarshal user: " err))) := by
  refine ⟨?_, ?_, ?_⟩
  · intro onlineUsers h
    exact convertToUsersLoop_error_nil sdk onlineUsers [] h
  · intro pre us x rest hpre hx
    rw [convertToUsers, convertToUsersLoop_append sdk pre (x :: rest) us [] hpre]
    cases x with
    | map userMap => exact absurd rfl (hx userMap)
    | _ => rfl
  · intro pre us userMap err rest hpre hm
    rw [convertToUsers, convertToUsersLoop_append sdk pre (Any.map userMap :: rest) us [] hpre]
    simp only [convertToUsersLoop, hm]

theorem convertToUsers_aborts_at_first_failure_witness :
    (convertToUsers (stubSDK itemA) [scenarioAUser, .string "user2", .other "chan int"]).2
      ≠ none ∧
    (convertToUsers (stubSDK itemA) [scenarioAUser, .string "user2", .other "chan int"]).1
      = [] ∧
    convertToUsers (stubSDK itemA) ([scenarioAUser] ++ Any.string "user2" :: [.other "chan int"])
      = ([], some (.plain "failed to cast user to map[string]interface{}")) ∧
    mapToStruct (stubSDK itemA) (stubSDK itemA).UnmarshalMapUser badLevelUser
      = .error (dynamodbattribute.unmarshalTypeError (.ofS "high") "int") ∧
    convertToUsers (stubSDK itemA) ([scenarioAUser] ++ Any.map badLevelUser :: [scenarioAUser])
      = ([], some (Errorf "failed to unmarshal user: "
          (dynamodbattribute.unmarshalTypeError (.ofS "high") "int"))) :=
  have hpre : List.Forall₂ (fun x u => ∃ userMap, x = Any.map userMap ∧
      mapToStruct (stubSDK itemA) (stubSDK itemA).UnmarshalMapUser userMap = .ok u)
      [scenarioAUser] [user1] :=
    List.Forall₂.cons ⟨_, rfl, rfl⟩ List.Forall₂.nil
  ⟨by decide,
   (convertToUsers_aborts_at_first_failure (stubSDK itemA)).1
     [scenarioAUser, .string "user2", .other "chan int"] (by decide),
   (convertToUsers_aborts_at_first_failure (stubSDK itemA)).2.1 [scenarioAUser] [user1]
     (.string "user2") [.other "chan int"] hpre (fun _ h => Any.noConfusion h),
   rfl,
   (convertToUsers_aborts_at_first_failure (stubSDK itemA)).2.2 [scenarioAUser] [user1]
     badLevelUser (dynamodbattribute.unmarshalTypeError (.ofS "high") "int") [scenarioAUser]
     hpre rfl⟩

theorem convertToUsers_fst_nil_of_error (sdk : SDK) (xs : List Any) :
    (match convertToUsers sdk xs with
      | (_, some err) => (([] : List User), some err)
      | (users, none) => (users, none)) = convertToUsers sdk xs := by
  cases h : (convertToUsers sdk xs).2 with
  | none =>
    have : convertToUsers sdk xs = ((convertToUsers sdk xs).1, none) := by rw [← h]
    rw [this]
  | some err =>
    have h1 : (convertToUsers sdk xs).1 = [] :=
      convertToUsersLoop_error_nil sdk xs [] (by rw [convertToUsers] at h; simp [h])
    have : convertToUsers sdk xs = ([], some err) := by rw [← h, ← h1]
    rw [this]

/-- C3: the projection of a fetched region record fails with an error and returns no users
when the record's `Attributes` is not a string-keyed mapping; when the mapping's
`online_users` entry is absent or is not a list (so for `{"population": 5}`); and, in
`convertToUsers`, when some element of the list is not a string-keyed mapping. -/
theorem getListOnlineUser_shape_mismatch (sdk : SDK) (region : String) (item : Item)
    (hget : GetItem sdk "hello-terraform" region = .ok item) :
    ((∀ attributesMap, item.Attributes ≠ Any.map attributesMap) →
      getListOnlineUser sdk region
        = ([], some (.plain "failed to cast item.Attributes to map[string]interface{}"))) ∧
    (∀ attributesMap, item.Attributes = Any.map attributesMap →
      (mapIndex attributesMap "online_users" = none ∨
        ∃ v, mapIndex attributesMap "online_users" = some v ∧ ∀ xs, v ≠ Any.slice xs) →
      (getListOnlineUser sdk region).1 = [] ∧ (getListOnlineUser sdk region).2 ≠ none ∧
      ∀ regionAttribute,
        mapToStruct sdk sdk.UnmarshalMapRegionAttribute attributesMap = .ok regionAttribute →
        getListOnlineUser sdk region
          = ([], some (.plain "failed to cast online_users to []interface{}"))) ∧
    (item.Attributes = Any.map scenarioB →
      (getListOnlineUser sdk region).1 = [] ∧ (getListOnlineUser sdk region).2 ≠ none) ∧
    (∀ attributesMap onlineUsers, item.Attributes = Any.map attributesMap →
      mapIndex attributesMap "online_users" = some (Any.slice onlineUsers) →
      (∃ x ∈ onlineUsers, ∀ userMap, x ≠ Any.map userMap) →
      (getListOnlineUser sdk region).1 = [] ∧ (getListOnlineUser sdk region).2 ≠ none) ∧
    (∀ onlineUsers : List Any, (∃ x ∈ onlineUsers, ∀ userMap, x ≠ Any.map userMap) →
      (convertToUsers sdk onlineUsers).1 = [] ∧ (convertToUsers sdk onlineUsers).2 ≠ none) := by
  have hconv : ∀ onlineUsers : List Any,
      (∃ x ∈ onlineUsers, ∀ userMap, x ≠ Any.map userMap) →
      (convertToUsers sdk onlineUsers).1 = [] ∧ (convertToUsers sdk onlineUsers).2 ≠ none := by
    intro onlineUsers h
    have h2 := convertToUsersLoop_not_map sdk onlineUsers [] h
    exact ⟨convertToUsersLoop_error_nil sdk onlineUsers [] h2, h2⟩
  have hlist : ∀ attributesMap, item.Attributes = Any.map attributesMap →
      (mapIndex attributesMap "online_users" = none ∨
        ∃ v, mapIndex attributesMap "online_users" = some v ∧ ∀ xs, v ≠ Any.slice xs) →
      (getListOnlineUser sdk region).1 = [] ∧ (getListOnlineUser sdk region).2 ≠ none ∧
      ∀ regionAttribute,
        mapToStruct sdk sdk.UnmarshalMapRegionAttribute attributesMap = .ok regionAttribute →
        getListOnlineUser sdk region
          = ([], some (.plain "failed to cast online_users to []interface{}")) := by
    intro attributesMap hattr hidx
    have hnot : ∀ xs, indexAny attributesMap "online_users" ≠ Any.slice xs := by
      intro xs
      rcases hidx with hnone | ⟨v, hv, hvs⟩
      · simp [indexAny, hnone]
      · simp only [indexAny, hv]
        exact hvs xs
    have key : ∀ regionAttribute,
        mapToStruct sdk sdk.UnmarshalMapRegionAttribute attributesMap = .ok regionAttribute →
        getListOnlineUser sdk region
          = ([], some (.plain "failed to cast online_users to []interface{}")) := by
      intro regionAttribute hr
      simp only [getListOnlineUser, hget, hattr, hr]
    cases hr : mapToStruct sdk sdk.UnmarshalMapRegionAttribute attributesMap with
    | error err =>
      have : getListOnlineUser sdk region
          = ([], some (Errorf "failed to unmarshal item.Attributes: " err)) := by
        simp only [getListOnlineUser, hget, hattr, hr]
      refine ⟨by rw [this], by rw [this]; simp, ?_⟩
      intro regionAttribute h
      cases h
    | ok r =>
      refine ⟨by rw [key r hr], by rw [key r hr]; simp, ?_⟩
      intro regionAttribute h
      exact key r hr
  refine ⟨?_, hlist, ?_, ?_, hconv⟩
  · intro hnot
    simp only [getListOnlineUser, hget]
  · intro hattr
    have := hlist scenarioB hattr (Or.inl rfl)
    exact ⟨this.1, this.2.1⟩
  · intro attributesMap onlineUsers hattr hidx hbad
    have hix : indexAny attributesMap "online_users" = Any.slice onlineUsers := by
      simp [indexAny, hidx]
    obtain ⟨h1, h2⟩ := hconv onlineUsers hbad
    cases hr : mapToStruct sdk sdk.UnmarshalMapRegionAttribute attributesMap with
    | error err =>
      have : getListOnlineUser sdk region
          = ([], some (Errorf "failed to unmarshal item.Attributes: " err)) := by
        simp only [getListOnlineUser, hget, hattr, hr]
      exact ⟨by rw [this], by rw [this]; simp⟩
    | ok r =>
      have : getListOnlineUser sdk region = convertToUsers sdk onlineUsers := by
        simp only [getListOnlineUser, hget, hattr, hr, hix]
        exact convertToUsers_fst_nil_of_error sdk onlineUsers
      exact ⟨by rw [this]; exact h1, by rw [this]; exact h2⟩

theorem getListOnlineUser_shape_mismatch_witness :
    GetItem (stubSDK itemB) "hello-terraform" "VN" = .ok itemB ∧
    mapIndex scenarioB "online_users" = none ∧
    getListOnlineUser (stubSDK itemB) "VN"
      = ([], some (.plain "failed to cast online_users to []interface{}")) ∧
    (getListOnlineUser (stubSDK itemB) "VN").1 = [] ∧
    (getListOnlineUser (stubSDK itemB) "VN").2 ≠ none :=
  have h := getListOnlineUser_shape_mismatch (stubSDK itemB) "VN" itemB rfl
  ⟨rfl, rfl, (h.2.1 scenarioB rfl (Or.inl rfl)).2.2 ⟨5, 0⟩ rfl, (h.2.2.1 rfl).1,
    (h.2.2.1 rfl).2⟩

/-! ## Scenario A -/

/-- C6, the claim as stated fails: the typed region record does not carry the online
users.  The mapping of Scenario A and the same mapping with an empty `online_users` list
project to the same `RegionAttribute`, `{Population: 5, TotalToken: 100}`, while their
online users differ; so no reading `OnlineUsers` of the region record gives the online users
of both. -/
theorem regionAttribute_omits_online_users :
    mapToStruct (stubSDK itemA) (stubSDK itemA).UnmarshalMapRegionAttribute scenarioA
      = .ok { Population := 5, TotalToken := 100 } ∧
    mapToStruct (stubSDK itemANoUsers) (stubSDK itemANoUsers).UnmarshalMapRegionAttribute
        scenarioANoUsers
      = .ok { Population := 5, TotalToken := 100 } ∧
    getListOnlineUser (stubSDK itemA) "VN" = ([user1], none) ∧
    getListOnlineUser (stubSDK itemANoUsers) "VN" = ([], none) ∧
    ¬ ∃ OnlineUsers : RegionAttribute → List User,
      (∀ r, mapToStruct (stubSDK itemA) (stubSDK itemA).UnmarshalMapRegionAttribute scenarioA
          = .ok r → getListOnlineUser (stubSDK itemA) "VN" = (OnlineUsers r, none)) ∧
      (∀ r, mapToStruct (stubSDK itemANoUsers)
            (stubSDK itemANoUsers).UnmarshalMapRegionAttribute scenarioANoUsers = .ok r →
          getListOnlineUser (stubSDK itemANoUsers) "VN" = (OnlineUsers r, none)) := by
  refine ⟨rfl, rfl, by decide, by decide, ?_⟩
  rintro ⟨OnlineUsers, h1, h2⟩
  have e1 := h1 ⟨5, 100⟩ rfl
  have e2 := h2 ⟨5, 100⟩ rfl
  have k1 : getListOnlineUser (stubSDK itemA) "VN" = ([user1], none) := by decide
  have k2 : getListOnlineUser (stubSDK itemANoUsers) "VN" = ([], none) := by decide
  rw [k1] at e1
  rw [k2] at e2
  have a1 : [user1] = OnlineUsers ⟨5, 100⟩ := congrArg Prod.fst e1
  have a2 : [] = OnlineUsers ⟨5, 100⟩ := congrArg Prod.fst e2
  rw [← a2] at a1
  exact absurd a1 (by decide)

/-- C6, amended: projecting the mapping of Scenario A into `RegionAttribute` yields
`{Population: 5, TotalToken: 100}`, the numeric fields that arrive as floating-point values
extracted as the integers of the same value; the online users are projected apart from that
record, by `convertToUsers` on the `online_users` list, and `getListOnlineUser` returns
`[{Username: "user1", Avatar: "avatar1", Level: 1, HighestScore: 100}]`. -/
theorem scenarioA_projection :
    GetItem (stubSDK itemA) "hello-terraform" "VN" = .ok itemA ∧
    mapToStruct (stubSDK itemA) (stubSDK itemA).UnmarshalMapRegionAttribute scenarioA
      = .ok { Population := 5, TotalToken := 100 } ∧
    indexAny scenarioA "online_users" = Any.slice [scenarioAUser] ∧
    convertToUsers (stubSDK itemA) [scenarioAUser]
      = ([{ Username := "user1", Avatar := "avatar1", Level := 1, HighestScore := 100 }],
          none) ∧
    getListOnlineUser (stubSDK itemA) "VN"
      = ([{ Username := "user1", Avatar := "avatar1", Level := 1, HighestScore := 100 }],
          none) := by
  refine ⟨rfl, rfl, rfl, by decide, by decide⟩

/-! ## The concurrent read harness -/

theorem countP_eq_eraseIdx (p : α → Bool) (l : List α) (j : Nat) (a : α)
    (h : l[j]? = some a) :
    l.countP p = (l.eraseIdx j).countP p + (if p a = true then 1 else 0) := by
  induction l generalizing j with
  | nil => simp at h
  | cons x l ih =>
    cases j with
    | zero =>
      simp only [List.getElem?_cons_zero, Option.some.injEq] at h
      subst h
      simp [List.countP_cons]
    | succ j =>
      simp only [List.getElem?_cons_succ] at h
      simp only [List.eraseIdx_cons_succ, List.countP_cons, ih j h]
      omega

theorem countP_set_eq_eraseIdx (p : α → Bool) (l : List α) (j : Nat) (a b : α)
    (h : l[j]? = some a) :
    (l.set j b).countP p = (l.eraseIdx j).countP p + (if p b = true then 1 else 0) := by
  induction l generalizing j with
  | nil => simp at h
  | cons x l ih =>
    cases j with
    | zero => simp [List.countP_cons]
    | succ j =>
      simp only [List.getElem?_cons_succ] at h
      simp only [List.set_cons_succ, List.eraseIdx_cons_succ, List.countP_cons, ih j h]
      omega

theorem mem_set_eraseIdx (l : List α) (j : Nat) (b x : α) (h : x ∈ l.set j b) :
    x = b ∨ x ∈ l.eraseIdx j := by
  induction l generalizing j with
  | nil => simp at h
  | cons y l ih =>
    cases j with
    | zero =>
      simp only [List.set_cons_zero, List.mem_cons] at h
      simpa using h
    | succ j =>
      simp only [List.set_cons_succ, List.mem_cons] at h
      rcases h with rfl | h
      · right; simp
      · rcases ih j h with rfl | h'
        · left; rfl
        · right; simp [h']

theorem mem_of_mem_eraseIdx (l : List α) (j : Nat) (x : α) (h : x ∈ l.eraseIdx j) :
    x ∈ l := by
  induction l generalizing j with
  | nil => simp at h
  | cons y l ih =>
    cases j with
    | zero =>
      simp only [List.eraseIdx_cons_zero] at h
      exact List.mem_cons_of_mem _ h
    | succ j =>
      simp only [List.eraseIdx_cons_succ, List.mem_cons] at h
      rcases h with rfl | h
      · exact List.mem_cons_self _ _
      · exact List.mem_cons_of_mem _ (ih j h)

theorem sum_map_eq_eraseIdx (f : α → Nat) (l : List α) (j : Nat) (a : α)
    (h : l[j]? = some a) :
    (l.map f).sum = ((l.eraseIdx j).map f).sum + f a := by
  induction l generalizing j with
  | nil => simp at h
  | cons x l ih =>
    cases j with
    | zero =>
      simp only [List.getElem?_cons_zero, Option.some.injEq] at h
      subst h
      simp [Nat.add_comm]
    | succ j =>
      simp only [List.getElem?_cons_succ] at h
      simp only [List.eraseIdx_cons_succ, List.map_cons, List.sum_cons, ih j h]
      omega

theorem sum_map_set_eq_eraseIdx (f : α → Nat) (l : List α) (j : Nat) (a b : α)
    (h : l[j]? = some a) :
    ((l.set j b).map f).sum = ((l.eraseIdx j).map f).sum + f b := by
  induction l generalizing j with
  | nil => simp at h
  | cons x l ih =>
    cases j with
    | zero => simp [Nat.add_comm]
    | succ j =>
      simp only [List.getElem?_cons_succ] at h
      simp only [List.set_cons_succ, List.eraseIdx_cons_succ, List.map_cons, List.sum_cons,
        ih j h]
      omega

theorem Inv.update (s : Harness) (hinv : Inv s) (j : Nat) (g g' : Goroutine) (wg' : Nat)
    (mu' : Bool) (tc' : Nat) (hj : s.goroutines[j]? = some g) (halive : g.alive = true)
    (hwg : wg' + 1 = s.wg + (if g'.alive = true then 1 else 0))
    (hmu : (if mu' = true then 1 else 0) + (if g.holdsLock = true then 1 else 0)
      = (if s.mu = true then 1 else 0) + (if g'.holdsLock = true then 1 else 0))
    (htc : tc' + (if g.counted = true then 1 else 0)
      = s.throttledCount + (if g'.counted = true then 1 else 0))
    (hother : tc' = s.throttledCount ∨ g.holdsLock = true)
    (hnew : ∀ t, g'.pc = .store t → t = tc')
    (hbranch : g'.inBranch = true → isThrottlingError g'.err = true) :
    Inv ({ s with wg := wg', mu := mu', throttledCount := tc' }.put j g') := by
  have ha := countP_eq_eraseIdx Goroutine.alive s.goroutines j g hj
  have ha' := countP_set_eq_eraseIdx Goroutine.alive s.goroutines j g g' hj
  have hl := countP_eq_eraseIdx Goroutine.holdsLock s.goroutines j g hj
  have hl' := countP_set_eq_eraseIdx Goroutine.holdsLock s.goroutines j g g' hj
  have hc := countP_eq_eraseIdx Goroutine.counted s.goroutines j g hj
  have hc' := countP_set_eq_eraseIdx Goroutine.counted s.goroutines j g g' hj
  have hwgpos : s.wg ≠ 0 := by
    have := hinv.wg_eq
    simp only [halive, if_true] at ha
    omega
  have hrun : ¬ (s.mainPc = .print ∨ s.mainPc = .returned) := fun h => hwgpos (hinv.finished h)
  constructor
  · simp only [Harness.put, List.length_set]
    exact hinv.length_eq
  · exact hinv.i_le
  · exact hinv.launching
  · exact hinv.launched
  · have := hinv.wg_eq
    simp only [Harness.put]
    simp only [halive, if_true] at ha
    omega
  · have := hinv.mu_eq
    simp only [Harness.put]
    omega
  · intro x hx t hxt
    simp only [Harness.put] at hx ⊢
    rcases mem_set_eraseIdx _ _ _ _ hx with rfl | hx'
    · exact hnew t hxt
    · rcases hother with htc' | hg
      · rw [htc']
        exact hinv.tmp_eq x (mem_of_mem_eraseIdx _ _ _ hx') t hxt
      · exfalso
        have hxl : x.holdsLock = true := by simp [Goroutine.holdsLock, hxt]
        have hpos : 0 < (s.goroutines.eraseIdx j).countP Goroutine.holdsLock :=
          List.countP_pos_iff.mpr ⟨x, hx', hxl⟩
        have := hinv.mu_eq
        simp only [hg, if_true] at hl
        split at this <;> omega
  · have := hinv.count_eq
    simp only [Harness.put]
    omega
  · intro x hx hxb
    simp only [Harness.put] at hx
    rcases mem_set_eraseIdx _ _ _ _ hx with rfl | hx'
    · exact hbranch hxb
    · exact hinv.throttled x (mem_of_mem_eraseIdx _ _ _ hx') hxb
  · intro h
    exact absurd h hrun
  · intro c hc
    exact absurd (Or.inr (hinv.printed_eq c hc).2) hrun
  · intro h
    exact absurd (Or.inr h) hrun

theorem Inv.init : Inv Harness.init := by
  constructor <;> simp [Harness.init, numRequests]

theorem Inv.main_only (s : Harness) (hinv : Inv s) (pc' : MainPc) (wg' : Nat)
    (printed' : Option Nat)
    (h3 : (pc' = .add ∨ pc' = .go) → s.i < numRequests)
    (h4 : (pc' = .wait ∨ pc' = .print ∨ pc' = .returned) → s.i = numRequests)
    (h5 : wg' = s.goroutines.countP Goroutine.alive + (if pc' = .go then 1 else 0))
    (h10 : (pc' = .print ∨ pc' = .returned) → wg' = 0)
    (h11 : ∀ c, printed' = some c → c = s.throttledCount ∧ pc' = .returned)
    (h12 : pc' = .returned → printed' = some s.throttledCount) :
    Inv { s with mainPc := pc', wg := wg', printed := printed' } :=
  { length_eq := hinv.length_eq
    i_le := hinv.i_le
    launching := h3
    launched := h4
    wg_eq := h5
    mu_eq := hinv.mu_eq
    tmp_eq := hinv.tmp_eq
    count_eq := hinv.count_eq
    throttled := hinv.throttled
    finished := h10
    printed_eq := h11
    returned_printed := h12 }

theorem Inv.not_printed (s : Harness) (hinv : Inv s) (h : s.mainPc ≠ .returned) :
    s.printed = none := by
  cases hp : s.printed with
  | none => rfl
  | some c => exact absurd (hinv.printed_eq c hp).2 h

theorem Inv.preserved_main (s s' : Harness) (hinv : Inv s) (h : step s .main = some s') :
    Inv s' := by
  have h5 := hinv.wg_eq
  simp only [step] at h
  cases hpc : s.mainPc with
  | loop =>
    have hnp := Inv.not_printed s hinv (by simp [hpc])
    simp only [hpc] at h h5
    by_cases hi : s.i < numRequests
    · simp only [hi, if_true, Option.some.injEq] at h
      subst h
      have := Inv.main_only s hinv .add s.wg s.printed (fun _ => hi) (by simp)
        (by simpa using h5) (by simp) (by simp [hnp]) (by simp)
      exact this
    · simp only [hi, if_false, Option.some.injEq] at h
      subst h
      have hle := hinv.i_le
      have := Inv.main_only s hinv .wait s.wg s.printed (by simp) (fun _ => by omega)
        (by simpa using h5) (by simp) (by simp [hnp]) (by simp)
      exact this
  | add =>
    have hnp := Inv.not_printed s hinv (by simp [hpc])
    simp only [hpc, Option.some.injEq] at h h5
    subst h
    have hlt := hinv.launching (Or.inl hpc)
    have := Inv.main_only s hinv .go (s.wg + 1) s.printed (fun _ => hlt) (by simp)
      (by simpa using h5) (by simp) (by simp [hnp]) (by simp)
    exact this
  | go =>
    have hnp := Inv.not_printed s hinv (by simp [hpc])
    simp only [hpc, Option.some.injEq] at h h5
    subst h
    have hlt := hinv.launching (Or.inr hpc)
    exact
      { length_eq := by simp [hinv.length_eq]
        i_le := hlt
        launching := by simp
        launched := by simp
        wg_eq := by
          simp only [List.countP_append, List.countP_cons, List.countP_nil, Goroutine.alive]
          simpa using h5
        mu_eq := by
          simp only [List.countP_append, List.countP_cons, List.countP_nil,
            Goroutine.holdsLock]
          simpa using hinv.mu_eq
        tmp_eq := by
          intro g hg t ht
          rcases List.mem_append.mp hg with hg | hg
          · exact hinv.tmp_eq g hg t ht
          · simp only [List.mem_singleton] at hg
            subst hg
            simp at ht
        count_eq := by
          simp only [List.countP_append, List.countP_cons, List.countP_nil, Goroutine.counted]
          simpa using hinv.count_eq
        throttled := by
          intro g hg hb
          rcases List.mem_append.mp hg with hg | hg
          · exact hinv.throttled g hg hb
          · simp only [List.mem_singleton] at hg
            subst hg
            simp [Goroutine.inBranch] at hb
        finished := by simp
        printed_eq := by simp [hnp]
        returned_printed := by simp }
  | wait =>
    have hnp := Inv.not_printed s hinv (by simp [hpc])
    simp only [hpc] at h h5
    by_cases hw : s.wg = 0
    · simp only [hw, if_true, Option.some.injEq] at h
      subst h
      have hn := hinv.launched (Or.inl hpc)
      have := Inv.main_only s hinv .print 0 s.printed (by simp) (fun _ => hn)
        (by simpa [hw] using h5) (fun _ => rfl) (by simp [hnp]) (by simp)
      exact this
    · simp [hw] at h
  | print =>
    simp only [hpc, Option.some.injEq] at h h5
    subst h
    have hn := hinv.launched (Or.inr (Or.inl hpc))
    have hw := hinv.finished (Or.inl hpc)
    have := Inv.main_only s hinv .returned s.wg (some s.throttledCount) (by simp)
      (fun _ => hn) (by simpa using h5) (fun _ => hw) (by simp) (by simp)
    exact this
  | returned => simp [hpc] at h

theorem Inv.preserved_reply (s s' : Harness) (hinv : Inv s) (j : Nat) (err : Option GoError)
    (h : step s (.reply j err) = some s') : Inv s' := by
  simp only [step] at h
  cases hj : s.goroutines[j]? with
  | none => simp [hj] at h
  | some g =>
    simp only [hj] at h
    by_cases hpc : g.pc = .call
    · simp only [hpc, if_true, Option.some.injEq] at h
      subst h
      exact Inv.update s hinv j g { pc := .check, err := err } s.wg s.mu s.throttledCount hj
        (by simp [Goroutine.alive, hpc]) (by simp [Goroutine.alive])
        (by simp [Goroutine.holdsLock, hpc]) (by simp [Goroutine.counted, hpc]) (Or.inl rfl)
        (by simp) (by simp [Goroutine.inBranch])
    · simp [hpc] at h

theorem Inv.preserved_run (s s' : Harness) (hinv : Inv s) (j : Nat)
    (h : step s (.run j) = some s') : Inv s' := by
  simp only [step] at h
  cases hj : s.goroutines[j]? with
  | none => simp [hj] at h
  | some g =>
    simp only [hj, stepGoroutine] at h
    have hmem : g ∈ s.goroutines := List.getElem?_mem hj
    cases hpc : g.pc with
    | call => simp [hpc] at h
    | check =>
      simp only [hpc] at h
      by_cases hthr : isThrottlingError g.err = true
      · have hne : g.err ≠ none := by
          intro hnone
          rw [hnone] at hthr
          simp [isThrottlingError, asAwsErr] at hthr
        simp only [hne, hthr, not_false_eq_true, if_true, Option.some.injEq, ne_eq] at h
        subst h
        exact Inv.update s hinv j g { g with pc := .lock } s.wg s.mu s.throttledCount hj
          (by simp [Goroutine.alive, hpc]) (by simp [Goroutine.alive])
          (by simp [Goroutine.holdsLock, hpc]) (by simp [Goroutine.counted, hpc]) (Or.inl rfl)
          (by simp) (fun _ => hthr)
      · have h' : s' = s.put j { g with pc := .deferred } := by
          by_cases hne : g.err ≠ none
          · rw [if_pos hne, if_neg hthr] at h
            exact (Option.some.inj h).symm
          · rw [if_neg hne] at h
            exact (Option.some.inj h).symm
        subst h'
        exact Inv.update s hinv j g { g with pc := .deferred } s.wg s.mu s.throttledCount hj
          (by simp [Goroutine.alive, hpc]) (by simp [Goroutine.alive])
          (by simp [Goroutine.holdsLock, hpc]) (by simp [Goroutine.counted, hpc, hthr])
          (Or.inl rfl) (by simp) (by simp [Goroutine.inBranch])
    | lock =>
      simp only [hpc] at h
      by_cases hmu : s.mu = true
      · simp [hmu] at h
      · rw [if_neg hmu] at h
        have h := Option.some.inj h
        subst h
        have hthr := hinv.throttled g hmem (by simp [Goroutine.inBranch, hpc])
        exact Inv.update s hinv j g { g with pc := .load } s.wg true s.throttledCount hj
          (by simp [Goroutine.alive, hpc]) (by simp [Goroutine.alive])
          (by simp [Goroutine.holdsLock, hpc, hmu]) (by simp [Goroutine.counted, hpc])
          (Or.inl rfl) (by simp) (fun _ => hthr)
    | load =>
      simp only [hpc, Option.some.injEq] at h
      subst h
      have hthr := hinv.throttled g hmem (by simp [Goroutine.inBranch, hpc])
      exact Inv.update s hinv j g { g with pc := .store s.throttledCount } s.wg s.mu
        s.throttledCount hj
        (by simp [Goroutine.alive, hpc]) (by simp [Goroutine.alive])
        (by simp [Goroutine.holdsLock, hpc]) (by simp [Goroutine.counted, hpc])
        (Or.inl rfl) (by simp) (fun _ => hthr)
    | store tmp =>
      simp only [hpc, Option.some.injEq] at h
      subst h
      have hthr := hinv.throttled g hmem (by simp [Goroutine.inBranch, hpc])
      have htmp := hinv.tmp_eq g hmem tmp hpc
      exact Inv.update s hinv j g { g with pc := .unlock } s.wg s.mu (tmp + 1) hj
        (by simp [Goroutine.alive, hpc]) (by simp [Goroutine.alive])
        (by simp [Goroutine.holdsLock, hpc]) (by simp [Goroutine.counted, hpc, hthr, htmp])
        (Or.inr (by simp [Goroutine.holdsLock, hpc])) (by simp) (fun _ => hthr)
    | unlock =>
      simp only [hpc] at h
      by_cases hmu : s.mu = true
      · rw [if_pos hmu] at h
        have h := Option.some.inj h
        subst h
        exact Inv.update s hinv j g { g with pc := .deferred } s.wg false s.throttledCount hj
          (by simp [Goroutine.alive, hpc]) (by simp [Goroutine.alive])
          (by simp [Goroutine.holdsLock, hpc, hmu]) (by simp [Goroutine.counted, hpc])
          (Or.inl rfl) (by simp) (by simp [Goroutine.inBranch])
      · simp [hmu] at h
    | deferred =>
      simp only [hpc] at h
      by_cases hwg : s.wg = 0
      · simp [hwg] at h
      · simp only [hwg, if_false, Option.some.injEq] at h
        subst h
        exact Inv.update s hinv j g { g with pc := .exited } (s.wg - 1) s.mu s.throttledCount
          hj (by simp [Goroutine.alive, hpc]) (by simp [Goroutine.alive]; omega)
          (by simp [Goroutine.holdsLock, hpc]) (by simp [Goroutine.counted, hpc])
          (Or.inl rfl) (by simp) (by simp [Goroutine.inBranch])
    | exited => simp [hpc] at h

theorem Inv.preserved (s s' : Harness) (a : Action) (hinv : Inv s) (h : step s a = some s') :
    Inv s' := by
  cases a with
  | main => exact Inv.preserved_main s s' hinv h
  | reply j err => exact Inv.preserved_reply s s' hinv j err h
  | run j => exact Inv.preserved_run s s' hinv j h

theorem Inv.of_run (s s' : Harness) (schedule : List Action) (hinv : Inv s)
    (h : HelloDynamoDB.run s schedule = some s') : Inv s' := by
  induction schedule generalizing s with
  | nil =>
    simp only [HelloDynamoDB.run, Option.some.injEq] at h
    subst h
    exact hinv
  | cons a schedule ih =>
    simp only [HelloDynamoDB.run] at h
    cases hs : HelloDynamoDB.step s a with
    | none => simp [hs] at h
    | some s1 =>
      simp only [hs] at h
      exact ih s1 (Inv.preserved s s1 a hinv hs) h

theorem stepsLeft_put (s : Harness) (j : Nat) (g g' : Goroutine) (wg' : Nat) (mu' : Bool)
    (tc' : Nat) (hj : s.goroutines[j]? = some g) (h : g'.stepsLeft < g.stepsLeft) :
    ({ s with wg := wg', mu := mu', throttledCount := tc' }.put j g').stepsLeft
      < s.stepsLeft := by
  have h1 := sum_map_eq_eraseIdx Goroutine.stepsLeft s.goroutines j g hj
  have h2 := sum_map_set_eq_eraseIdx Goroutine.stepsLeft s.goroutines j g g' hj
  simp only [Harness.stepsLeft, Harness.put]
  omega

theorem stepsLeft_step (s s' : Harness) (a : Action) (hinv : Inv s)
    (h : step s a = some s') : s'.stepsLeft < s.stepsLeft := by
  cases a with
  | main =>
    simp only [step] at h
    cases hpc : s.mainPc with
    | loop =>
      simp only [hpc] at h
      by_cases hi : s.i < numRequests
      · rw [if_pos hi] at h
        have h := Option.some.inj h
        subst h
        simp only [Harness.stepsLeft, hpc]
        omega
      · rw [if_neg hi] at h
        have h := Option.some.inj h
        subst h
        simp only [Harness.stepsLeft, hpc]
        omega
    | add =>
      simp only [hpc, Option.some.injEq] at h
      subst h
      simp only [Harness.stepsLeft, hpc]
      omega
    | go =>
      simp only [hpc, Option.some.injEq] at h
      subst h
      have hlt := hinv.launching (Or.inr hpc)
      simp only [Harness.stepsLeft, hpc, List.map_append, List.sum_append, List.map_cons,
        List.map_nil, List.sum_cons, List.sum_nil, Goroutine.stepsLeft]
      omega
    | wait =>
      simp only [hpc] at h
      by_cases hw : s.wg = 0
      · rw [if_pos hw] at h
        have h := Option.some.inj h
        subst h
        simp only [Harness.stepsLeft, hpc]
        omega
      · simp [hw] at h
    | print =>
      simp only [hpc, Option.some.injEq] at h
      subst h
      simp only [Harness.stepsLeft, hpc]
      omega
    | returned => simp [hpc] at h
  | reply j err =>
    simp only [step] at h
    cases hj : s.goroutines[j]? with
    | none => simp [hj] at h
    | some g =>
      simp only [hj] at h
      by_cases hpc : g.pc = .call
      · rw [if_pos hpc] at h
        have h := Option.some.inj h
        subst h
        exact stepsLeft_put s j g { pc := .check, err := err } s.wg s.mu s.throttledCount hj
          (by simp [Goroutine.stepsLeft, hpc])
      · simp [hpc] at h
  | run j =>
    simp only [step] at h
    cases hj : s.goroutines[j]? with
    | none => simp [hj] at h
    | some g =>
      simp only [hj, stepGoroutine] at h
      cases hpc : g.pc with
      | call => simp [hpc] at h
      | check =>
        simp only [hpc] at h
        split at h
        · split at h
          · have h := Option.some.inj h
            subst h
            exact stepsLeft_put s j g _ s.wg s.mu s.throttledCount hj
              (by simp [Goroutine.stepsLeft, hpc])
          · have h := Option.some.inj h
            subst h
            exact stepsLeft_put s j g _ s.wg s.mu s.throttledCount hj
              (by simp [Goroutine.stepsLeft, hpc])
        · have h := Option.some.inj h
          subst h
          exact stepsLeft_put s j g _ s.wg s.mu s.throttledCount hj
            (by simp [Goroutine.stepsLeft, hpc])
      | lock =>
        simp only [hpc] at h
        split at h
        · simp at h
        · have h := Option.some.inj h
          subst h
          exact stepsLeft_put s j g _ s.wg true s.throttledCount hj
            (by simp [Goroutine.stepsLeft, hpc])
      | load =>
        simp only [hpc, Option.some.injEq] at h
        subst h
        exact stepsLeft_put s j g _ s.wg s.mu s.throttledCount hj
          (by simp [Goroutine.stepsLeft, hpc])
      | store tmp =>
        simp only [hpc, Option.some.injEq] at h
        subst h
        exact stepsLeft_put s j g _ s.wg s.mu (tmp + 1) hj
          (by simp [Goroutine.stepsLeft, hpc])
      | unlock =>
        simp only [hpc] at h
        split at h
        · have h := Option.some.inj h
          subst h
          exact stepsLeft_put s j g _ s.wg false s.throttledCount hj
            (by simp [Goroutine.stepsLeft, hpc])
        · simp at h
      | deferred =>
        simp only [hpc] at h
        split at h
        · simp at h
        · have h := Option.some.inj h
          subst h
          exact stepsLeft_put s j g _ (s.wg - 1) s.mu s.throttledCount hj
            (by simp [Goroutine.stepsLeft, hpc])
      | exited => simp [hpc] at h

theorem stepsLeft_run (s s' : Harness) (schedule : List Action) (hinv : Inv s)
    (h : run s schedule = some s') : schedule.length + s'.stepsLeft ≤ s.stepsLeft := by
  induction schedule generalizing s with
  | nil =>
    simp only [run, Option.some.injEq] at h
    subst h
    simp
  | cons a schedule ih =>
    simp only [run] at h
    cases hs : step s a with
    | none => simp [hs] at h
    | some s1 =>
      simp only [hs] at h
      have h1 := stepsLeft_step s s1 a hinv hs
      have h2 := ih s1 (Inv.preserved s s1 a hinv hs) h
      simp only [List.length_cons]
      omega

theorem holder_enabled (s : Harness) (j : Nat) (g : Goroutine)
    (hj : s.goroutines[j]? = some g) (hg : g.holdsLock = true) (hmu : s.mu = true) :
    (step s (.run j)).isSome = true := by
  cases hpc : g.pc with
  | load => simp [step, hj, stepGoroutine, hpc]
  | store tmp => simp [step, hj, stepGoroutine, hpc]
  | unlock => simp [step, hj, stepGoroutine, hpc, hmu]
  | _ => simp [Goroutine.holdsLock, hpc] at hg

theorem enabled (s : Harness) (hinv : Inv s) (h : s.mainPc ≠ .returned) :
    ∃ a, (step s a).isSome = true := by
  cases hpc : s.mainPc with
  | loop =>
    refine ⟨.main, ?_⟩
    by_cases hi : s.i < numRequests <;> simp [step, hpc, hi]
  | add => exact ⟨.main, by simp [step, hpc]⟩
  | go => exact ⟨.main, by simp [step, hpc]⟩
  | print => exact ⟨.main, by simp [step, hpc]⟩
  | returned => exact absurd hpc h
  | wait =>
    by_cases hw : s.wg = 0
    · exact ⟨.main, by simp [step, hpc, hw]⟩
    · have hwg := hinv.wg_eq
      simp only [hpc] at hwg
      have hpos : 0 < s.goroutines.countP Goroutine.alive := by
        simp at hwg
        omega
      obtain ⟨g, hmem, halive⟩ := List.countP_pos_iff.mp hpos
      obtain ⟨j, hj⟩ := List.mem_iff_getElem?.mp hmem
      have hmu := hinv.mu_eq
      cases hg : g.pc with
      | call => exact ⟨.reply j none, by simp [step, hj, hg]⟩
      | check =>
        refine ⟨.run j, ?_⟩
        simp only [step, hj, stepGoroutine, hg]
        split
        · split <;> rfl
        · rfl
      | lock =>
        by_cases hm : s.mu = true
        · rw [if_pos hm] at hmu
          have hpos' : 0 < s.goroutines.countP Goroutine.holdsLock := by omega
          obtain ⟨g2, hmem2, hg2⟩ := List.countP_pos_iff.mp hpos'
          obtain ⟨j2, hj2⟩ := List.mem_iff_getElem?.mp hmem2
          exact ⟨.run j2, holder_enabled s j2 g2 hj2 hg2 hm⟩
        · exact ⟨.run j, by simp [step, hj, stepGoroutine, hg, hm]⟩
      | load => exact ⟨.run j, by simp [step, hj, stepGoroutine, hg]⟩
      | store tmp => exact ⟨.run j, by simp [step, hj, stepGoroutine, hg]⟩
      | unlock =>
        have hpos' : 0 < s.goroutines.countP Goroutine.holdsLock :=
          List.countP_pos_iff.mpr ⟨g, hmem, by simp [Goroutine.holdsLock, hg]⟩
        have hm : s.mu = true := by
          by_contra hm
          rw [if_neg hm] at hmu
          omega
        exact ⟨.run j, holder_enabled s j g hj (by simp [Goroutine.holdsLock, hg]) hm⟩
      | deferred => exact ⟨.run j, by simp [step, hj, stepGoroutine, hg, hw]⟩
      | exited => simp [Goroutine.alive, hg] at halive

theorem progress (s : Harness) (hinv : Inv s) (h : s.mainPc ≠ .returned) :
    ∃ a s', step s a = some s' := by
  obtain ⟨a, ha⟩ := enabled s hinv h
  exact ⟨a, Option.isSome_iff_exists.mp ha⟩

theorem all_exited (s : Harness) (hinv : Inv s) (h : s.wg = 0) :
    ∀ g ∈ s.goroutines, g.pc = .exited := by
  intro g hg
  by_contra hne
  have halive : g.alive = true := by
    cases hpc : g.pc <;> simp_all [Goroutine.alive]
  have hpos : 0 < s.goroutines.countP Goroutine.alive :=
    List.countP_pos_iff.mpr ⟨g, hg, halive⟩
  have := hinv.wg_eq
  omega

theorem countP_counted_of_exited (l : List Goroutine) (h : ∀ g ∈ l, g.pc = .exited) :
    l.countP Goroutine.counted = l.countP (fun g => isThrottlingError g.err) := by
  apply List.countP_congr
  intro g hg
  simp [Goroutine.counted, h g hg]

/-- C8: in every run of `sample`, whatever the interleaving of the goroutines and the
answers of the store, a count that is reported is reported after all 100 launched reads have
exited, and equals the number of reads whose error `isThrottlingError` classifies as
throttling.  The report is always reached: a run in which `sample` has not returned can take
a further step, no run has more than 1003 steps, and `sample` has reported when it has
returned. -/
theorem sample_reports_throttled_count (schedule : List Action) (s : Harness)
    (h : run Harness.init schedule = some s) :
    (∀ c, s.printed = some c →
      s.goroutines.length = 100 ∧ (∀ g ∈ s.goroutines, g.pc = .exited) ∧
      c = throttledReads s) ∧
    (s.mainPc ≠ .returned → ∃ a s', step s a = some s') ∧
    (s.mainPc = .returned → ∃ c, s.printed = some c) ∧
    schedule.length ≤ 1003 := by
  have hinv : Inv s := Inv.of_run Harness.init s schedule Inv.init h
  refine ⟨?_, progress s hinv, ?_, ?_⟩
  · intro c hc
    obtain ⟨hceq, hret⟩ := hinv.printed_eq c hc
    have hwg := hinv.finished (Or.inr hret)
    have hall := all_exited s hinv hwg
    refine ⟨?_, hall, ?_⟩
    · rw [hinv.length_eq, hinv.launched (Or.inr (Or.inr hret))]
      rfl
    · rw [hceq, hinv.count_eq, throttledReads, countP_counted_of_exited _ hall]
  · intro hret
    exact ⟨_, hinv.returned_printed hret⟩
  · have := stepsLeft_run Harness.init s schedule Inv.init h
    have h0 : Harness.init.stepsLeft = 1003 := by decide
    omega

set_option maxRecDepth 100000 in
theorem sample_reports_throttled_count_witness :
    run Harness.init launchAllThenReverse = some reportedState ∧
    reportedState.printed = some 34 ∧
    throttledReads reportedState = 34 ∧
    ((List.range 100).filter (fun j => isThrottlingError (everyThird j))).length = 34 :=
  have h : run Harness.init launchAllThenReverse = some reportedState := by decide
  ⟨h, rfl,
    ((sample_reports_throttled_count launchAllThenReverse reportedState h).1 34 rfl).2.2.symm,
    by decide⟩

end HelloDynamoDB
